import Mathlib

/-!
Shallow embedding of `smartcontractkit/logger` (`logger.go`) and proofs about
its specification.

The underlying zap engine and the prometheus counter bank are external
collaborators; they are modelled at their contract boundary:
* an emission is a record (level, message, fields) handed to the engine; the
  engine's Panic-level emission panics after writing and its Fatal-level
  emission exits the process (zap's documented behaviour, also stated in the
  spec);
* each per-level prometheus counter is a `Nat` that `Inc()` bumps by one.
Statements of the Go methods are translated in source order; a statement that
follows a call which panicked or exited does not run (Go abrupt termination).
-/

set_option autoImplicit false

namespace SCLogger

/-- zapcore.Level: the severity enumeration used for emission and counter
labelling. -/
inductive Level where
  | debug
  | info
  | warn
  | error
  | dpanic
  | panic
  | fatal
deriving DecidableEq, Repr

/-- Control outcome of running a statement sequence: normal return, a Go
panic propagating to the caller, or process exit. -/
inductive Control where
  | normal
  | panicked
  | exited
deriving DecidableEq, Repr

/-- The side effect zap attaches to an emission at a given level: Panic-level
emission panics after logging, Fatal-level emission calls os.Exit after
logging, every other level returns normally. -/
def levelControl : Level → Control
  | .panic => .panicked
  | .fatal => .exited
  | _ => .normal

/-- The prometheus counter bank of `logger.go`'s var block: one counter per
level, labelled by the level name, all created at process start with value 0.
Field names follow the source variables. -/
structure CounterBank where
  debugLineCounter : Nat := 0
  infoLineCounter : Nat := 0
  warnLineCounter : Nat := 0
  errorLineCounter : Nat := 0
  dPanicLineCounter : Nat := 0
  panicLineCounter : Nat := 0
  fatalLineCounter : Nat := 0
deriving DecidableEq, Repr

/-- The counter bank as the promauto var block creates it: every per-level
counter pre-created with value 0. -/
def initialCounterBank : CounterBank := {}

/-- Read the counter labelled by a level. -/
def CounterBank.get (c : CounterBank) : Level → Nat
  | .debug => c.debugLineCounter
  | .info => c.infoLineCounter
  | .warn => c.warnLineCounter
  | .error => c.errorLineCounter
  | .dpanic => c.dPanicLineCounter
  | .panic => c.panicLineCounter
  | .fatal => c.fatalLineCounter

/-- `<level>LineCounter.Inc()`: bump the counter of one level by one. -/
def CounterBank.inc (c : CounterBank) : Level → CounterBank
  | .debug => { c with debugLineCounter := c.debugLineCounter + 1 }
  | .info => { c with infoLineCounter := c.infoLineCounter + 1 }
  | .warn => { c with warnLineCounter := c.warnLineCounter + 1 }
  | .error => { c with errorLineCounter := c.errorLineCounter + 1 }
  | .dpanic => { c with dPanicLineCounter := c.dPanicLineCounter + 1 }
  | .panic => { c with panicLineCounter := c.panicLineCounter + 1 }
  | .fatal => { c with fatalLineCounter := c.fatalLineCounter + 1 }

/-- One record handed to the zap engine: severity, message, and the context
fields attached to the emitting logger (plus any per-call key/values). -/
structure Record where
  level : Level
  msg : String
  fields : List (String × String)
deriving DecidableEq, Repr

/-- Observable state threaded through the facade: the sequence of records
handed to the engine (attempted emissions at the facade boundary — delivery
and level filtering are the engine's own business) and the shared counter
bank. -/
structure LogState where
  emitted : List Record
  counters : CounterBank
deriving DecidableEq, Repr

/-- A fresh state: nothing emitted, all counters at their pre-created 0. -/
def initialState : LogState := ⟨[], initialCounterBank⟩

/-- Go sequencing under abrupt termination: the continuation runs only when
the statement before it returned normally; after a panic or an os.Exit the
rest of the function body does not run. -/
def seqC (r : LogState × Control) (f : LogState → LogState × Control) :
    LogState × Control :=
  match r with
  | (st, Control.normal) => f st
  | r => r

/-- A Go error value: `none` is nil, `some s` is a non-nil error whose
`Error()` string is `s`. -/
abbrev GoError := Option String

namespace errors

/-- pkg/errors.Wrap (external collaborator): the wrapped error's message is
`msg + ": " + err`. -/
def Wrap (err : String) (msg : String) : String := msg ++ ": " ++ err

end errors

namespace fmt

/-- Stand-in for Go's fmt.Sprintf (external to the repository). Its exact
output is irrelevant to every property proved below; only the fact that the
formatted message is handed to the engine matters. -/
def Sprintf (format : String) (values : List String) : String :=
  format ++ String.join values

end fmt

/-- zap.SugaredLogger, at the contract boundary the facade uses: it carries
the accumulated context fields attached by `With`. -/
structure SugaredLogger where
  fields : List (String × String)
deriving DecidableEq, Repr

/-- One leveled emission by the engine: the record is appended to the emitted
sequence, then the engine's level side effect applies (panic at Panic level,
exit at Fatal level). -/
def SugaredLogger.emit (z : SugaredLogger) (lvl : Level) (msg : String)
    (kv : List (String × String)) (st : LogState) : LogState × Control :=
  ({ st with emitted := st.emitted ++ [⟨lvl, msg, z.fields ++ kv⟩] },
   levelControl lvl)

/-- zap `With`: returns a derived logger with the extra field appended; the
receiver is not mutated. -/
def SugaredLogger.With (z : SugaredLogger) (k v : String) : SugaredLogger :=
  ⟨z.fields ++ [(k, v)]⟩

def SugaredLogger.Debug (z : SugaredLogger) (msg : String) (st : LogState) :
    LogState × Control := z.emit .debug msg [] st

def SugaredLogger.Info (z : SugaredLogger) (msg : String) (st : LogState) :
    LogState × Control := z.emit .info msg [] st

def SugaredLogger.Warn (z : SugaredLogger) (msg : String) (st : LogState) :
    LogState × Control := z.emit .warn msg [] st

def SugaredLogger.Error (z : SugaredLogger) (msg : String) (st : LogState) :
    LogState × Control := z.emit .error msg [] st

def SugaredLogger.Panic (z : SugaredLogger) (msg : String) (st : LogState) :
    LogState × Control := z.emit .panic msg [] st

def SugaredLogger.Fatal (z : SugaredLogger) (msg : String) (st : LogState) :
    LogState × Control := z.emit .fatal msg [] st

def SugaredLogger.Debugw (z : SugaredLogger) (msg : String)
    (kv : List (String × String)) (st : LogState) : LogState × Control :=
  z.emit .debug msg kv st

def SugaredLogger.Infow (z : SugaredLogger) (msg : String)
    (kv : List (String × String)) (st : LogState) : LogState × Control :=
  z.emit .info msg kv st

def SugaredLogger.Warnw (z : SugaredLogger) (msg : String)
    (kv : List (String × String)) (st : LogState) : LogState × Control :=
  z.emit .warn msg kv st

def SugaredLogger.Errorw (z : SugaredLogger) (msg : String)
    (kv : List (String × String)) (st : LogState) : LogState × Control :=
  z.emit .error msg kv st

/-- `const TraceId = "TraceID"` -/
def TraceId : String := "TraceID"

/-- A non-nil trace.Span, reduced to what the facade reads from it:
`span.SpanContext().TraceID().String()`. -/
structure Span where
  traceID : String
deriving DecidableEq, Repr

/-- `type logger struct { l *zap.SugaredLogger }` -/
structure logger where
  l : SugaredLogger
deriving DecidableEq, Repr

/-- Bump one level's counter in the state (`<level>LineCounter.Inc()`). -/
def incCounter (lvl : Level) (st : LogState) : LogState :=
  { st with counters := st.counters.inc lvl }

/-- `func (log logger) Write(b []byte) (int, error)`:
`log.l.Info(string(b)); return len(b), nil`. -/
def logger.Write (log : logger) (b : List Char) (st : LogState) :
    (LogState × Control) × (Nat × GoError) :=
  let r := log.l.Info (String.mk b) st
  (r, (b.length, none))

/-- `func (log logger) Infow(msg, keysAndValues...)`:
`log.l.Infow(msg, keysAndValues...); infoLineCounter.Inc()`. -/
def logger.Infow (log : logger) (msg : String) (keysAndValues : List (String × String))
    (st : LogState) : LogState × Control :=
  seqC (log.l.Infow msg keysAndValues st) (fun st => (incCounter .info st, .normal))

/-- `func (log logger) Debugw(msg, keysAndValues...)`. -/
def logger.Debugw (log : logger) (msg : String) (keysAndValues : List (String × String))
    (st : LogState) : LogState × Control :=
  seqC (log.l.Debugw msg keysAndValues st) (fun st => (incCounter .debug st, .normal))

/-- `func (log logger) Warnw(msg, keysAndValues...)`. -/
def logger.Warnw (log : logger) (msg : String) (keysAndValues : List (String × String))
    (st : LogState) : LogState × Control :=
  seqC (log.l.Warnw msg keysAndValues st) (fun st => (incCounter .warn st, .normal))

/-- `func (log logger) Errorw(msg, keysAndValues...)`. -/
def logger.Errorw (log : logger) (msg : String) (keysAndValues : List (String × String))
    (st : LogState) : LogState × Control :=
  seqC (log.l.Errorw msg keysAndValues st) (fun st => (incCounter .error st, .normal))

/-- `func (log logger) Infof(format, values...)`:
`log.l.Info(fmt.Sprintf(format, values...)); infoLineCounter.Inc()`. -/
def logger.Infof (log : logger) (format : String) (values : List String)
    (st : LogState) : LogState × Control :=
  seqC (log.l.Info (fmt.Sprintf format values) st)
    (fun st => (incCounter .info st, .normal))

/-- `func (log logger) Debugf(format, values...)`. -/
def logger.Debugf (log : logger) (format : String) (values : List String)
    (st : LogState) : LogState × Control :=
  seqC (log.l.Debug (fmt.Sprintf format values) st)
    (fun st => (incCounter .debug st, .normal))

/-- `func (log logger) Warnf(format, values...)`. -/
def logger.Warnf (log : logger) (format : String) (values : List String)
    (st : LogState) : LogState × Control :=
  seqC (log.l.Warn (fmt.Sprintf format values) st)
    (fun st => (incCounter .warn st, .normal))

/-- `func (log logger) Panicf(format, values...)`:
`log.l.Panic(fmt.Sprintf(format, values...)); panicLineCounter.Inc()` —
the increment is written after the engine call that panics. -/
def logger.Panicf (log : logger) (format : String) (values : List String)
    (st : LogState) : LogState × Control :=
  seqC (log.l.Panic (fmt.Sprintf format values) st)
    (fun st => (incCounter .panic st, .normal))

/-- `func (log logger) Info(args...)` (args modelled as the default-formatted
message). -/
def logger.Info (log : logger) (msg : String) (st : LogState) :
    LogState × Control :=
  seqC (log.l.Info msg st) (fun st => (incCounter .info st, .normal))

/-- `func (log logger) Debug(args...)`. -/
def logger.Debug (log : logger) (msg : String) (st : LogState) :
    LogState × Control :=
  seqC (log.l.Debug msg st) (fun st => (incCounter .debug st, .normal))

/-- `func (log logger) Warn(args...)`. -/
def logger.Warn (log : logger) (msg : String) (st : LogState) :
    LogState × Control :=
  seqC (log.l.Warn msg st) (fun st => (incCounter .warn st, .normal))

/-- `func (log logger) Error(args...)`. -/
def logger.Error (log : logger) (msg : String) (st : LogState) :
    LogState × Control :=
  seqC (log.l.Error msg st) (fun st => (incCounter .error st, .normal))

/-- `func (log logger) WarnIf(err)`: `if err != nil { log.l.Warn(err);
warnLineCounter.Inc() }`. -/
def logger.WarnIf (log : logger) (err : GoError) (st : LogState) :
    LogState × Control :=
  match err with
  | some e => seqC (log.l.Warn e st) (fun st => (incCounter .warn st, .normal))
  | none => (st, .normal)

/-- `func (log logger) ErrorIf(err, optionalMsg...)`: when err is non-nil,
emit `errors.Wrap(err, optionalMsg[0])` if a message was supplied, else err
itself, then `errorLineCounter.Inc()`. -/
def logger.ErrorIf (log : logger) (err : GoError) (optionalMsg : List String)
    (st : LogState) : LogState × Control :=
  match err with
  | some e =>
    match optionalMsg with
    | m :: _ =>
      seqC (log.l.Error (errors.Wrap e m) st)
        (fun st => (incCounter .error st, .normal))
    | [] =>
      seqC (log.l.Error e st) (fun st => (incCounter .error st, .normal))
  | none => (st, .normal)

/-- `func (log logger) ErrorIfCalling(f, optionalMsg...)`: `err := f()`, and
if err is non-nil wrap it with the runtime-resolved name of `f`
(`runtime.FuncForPC(reflect.ValueOf(f).Pointer()).Name()`, supplied here as
the datum `name` since Lean functions carry no runtime names), wrap again
with `optionalMsg[0]` when present, emit at Error, increment the error
counter. The callback's own effects are threaded through a caller state σ. -/
def logger.ErrorIfCalling {σ : Type} (log : logger) (cs : σ) (name : String)
    (f : σ → σ × GoError) (optionalMsg : List String) (st : LogState) :
    (LogState × Control) × σ :=
  match f cs with
  | (cs', err) =>
    match err with
    | some errMsg =>
      let e := errors.Wrap errMsg name
      match optionalMsg with
      | m :: _ =>
        (seqC (log.l.Error (errors.Wrap e m) st)
          (fun st => (incCounter .error st, .normal)), cs')
      | [] =>
        (seqC (log.l.Error e st)
          (fun st => (incCounter .error st, .normal)), cs')
    | none => ((st, .normal), cs')

/-- `func (log logger) PanicIf(err)`: `if err != nil { log.l.Panic(err) }` —
no counter statement appears in this method. -/
def logger.PanicIf (log : logger) (err : GoError) (st : LogState) :
    LogState × Control :=
  match err with
  | some e => log.l.Panic e st
  | none => (st, .normal)

/-- `func (log logger) Fatal(args...)`: `fatalLineCounter.Inc();
log.l.Fatal(args...)` — here the increment comes first. -/
def logger.Fatal (log : logger) (msg : String) (st : LogState) :
    LogState × Control :=
  let st := incCounter .fatal st
  log.l.Fatal msg st

/-- `func (log logger) Errorf(format, values...)`. -/
def logger.Errorf (log : logger) (format : String) (values : List String)
    (st : LogState) : LogState × Control :=
  seqC (log.l.Error (fmt.Sprintf format values) st)
    (fun st => (incCounter .error st, .normal))

/-- `func (log logger) Fatalf(format, values...)`:
`log.l.Fatal(fmt.Sprintf(format, values...)); fatalLineCounter.Inc()` — the
increment is written after the engine call that exits the process. -/
def logger.Fatalf (log : logger) (format : String) (values : List String)
    (st : LogState) : LogState × Control :=
  seqC (log.l.Fatal (fmt.Sprintf format values) st)
    (fun st => (incCounter .fatal st, .normal))

/-- `func (log logger) Panic(args...)`: `log.l.Panic(args...);
panicLineCounter.Inc()` — the increment is written after the engine call
that panics. -/
def logger.Panic (log : logger) (msg : String) (st : LogState) :
    LogState × Control :=
  seqC (log.l.Panic msg st) (fun st => (incCounter .panic st, .normal))

/-- `func (log logger) WithSpan(span trace.Span)`: the method has no return
value; when span is non-nil it evaluates
`log.l.With(TraceId, span.SpanContext().TraceID().String())` and discards the
derived logger the engine returns. -/
def logger.WithSpan (log : logger) (span : Option Span) (st : LogState) :
    LogState × Control :=
  match span with
  | some s =>
    let _discarded := log.l.With TraceId s.traceID
    (st, .normal)
  | none => (st, .normal)

/-- `func (log logger) Sync() error`: `return log.l.Sync()`; the engine's
flush outcome is an input of the model. -/
def logger.Sync (_log : logger) (engineErr : GoError) (st : LogState) :
    (LogState × Control) × GoError :=
  ((st, .normal), engineErr)

/-- zap.Config, at the fields CreateProductionLogger touches: output paths,
error-output paths, and the active level. -/
structure Config where
  OutputPaths : List String
  ErrorOutputPaths : List String
  level : Level
deriving DecidableEq, Repr

namespace zap

/-- zap.NewProductionConfig() (external collaborator): both path lists are
["stderr"] and the level is Info. -/
def NewProductionConfig : Config :=
  { OutputPaths := ["stderr"], ErrorOutputPaths := ["stderr"], level := .info }

end zap

/-- Modelled from the spec: `logFileURI` is defined in a repository file that
is not under src/; the spec says only that the target directory is "used to
derive a log file path when disk persistence is enabled", so the model joins
the directory with a log-file name. -/
def logFileURI (dir : String) : String := dir ++ "/log.jsonl"

/-- `func CreateProductionLogger(dir, jsonConsole, lvl, toDisk)`: builds the
configuration in source order; the final `config.Build` step (the engine
constructing a logger from the configuration) is the external boundary, so
the model returns the configuration the logger is built from. -/
def CreateProductionLogger (dir : String) (jsonConsole : Bool) (lvl : Level)
    (toDisk : Bool) : Config :=
  let config := zap.NewProductionConfig
  let config :=
    if !jsonConsole then { config with OutputPaths := ["pretty://console"] }
    else config
  let config :=
    if toDisk then
      let destination := logFileURI dir
      { config with
          OutputPaths := config.OutputPaths ++ [destination],
          ErrorOutputPaths := config.ErrorOutputPaths ++ [destination] }
    else config
  { config with level := lvl }

/-- One invocation of an exported facade operation, with its inputs. The
callback of ErrorIfCalling is represented by its runtime name and the error
it returns. -/
inductive Op where
  | write (b : List Char)
  | info (msg : String)
  | infow (msg : String) (kv : List (String × String))
  | infof (format : String) (values : List String)
  | debug (msg : String)
  | debugw (msg : String) (kv : List (String × String))
  | debugf (format : String) (values : List String)
  | warn (msg : String)
  | warnw (msg : String) (kv : List (String × String))
  | warnf (format : String) (values : List String)
  | warnIf (err : GoError)
  | error (msg : String)
  | errorw (msg : String) (kv : List (String × String))
  | errorf (format : String) (values : List String)
  | errorIf (err : GoError) (optionalMsg : List String)
  | errorIfCalling (name : String) (res : GoError) (optionalMsg : List String)
  | panic (msg : String)
  | panicf (format : String) (values : List String)
  | panicIf (err : GoError)
  | fatal (msg : String)
  | fatalf (format : String) (values : List String)
  | withSpan (span : Option Span)
  | sync (engineErr : GoError)

/-- Run one exported operation against a logger value and a state, keeping
the state-and-control part of the outcome. -/
def Op.apply (op : Op) (log : logger) (st : LogState) : LogState × Control :=
  match op with
  | .write b => (log.Write b st).1
  | .info msg => log.Info msg st
  | .infow msg kv => log.Infow msg kv st
  | .infof format values => log.Infof format values st
  | .debug msg => log.Debug msg st
  | .debugw msg kv => log.Debugw msg kv st
  | .debugf format values => log.Debugf format values st
  | .warn msg => log.Warn msg st
  | .warnw msg kv => log.Warnw msg kv st
  | .warnf format values => log.Warnf format values st
  | .warnIf err => log.WarnIf err st
  | .error msg => log.Error msg st
  | .errorw msg kv => log.Errorw msg kv st
  | .errorf format values => log.Errorf format values st
  | .errorIf err optionalMsg => log.ErrorIf err optionalMsg st
  | .errorIfCalling name res optionalMsg =>
    (logger.ErrorIfCalling log () name (fun u => (u, res)) optionalMsg st).1
  | .panic msg => log.Panic msg st
  | .panicf format values => log.Panicf format values st
  | .panicIf err => log.PanicIf err st
  | .fatal msg => log.Fatal msg st
  | .fatalf format values => log.Fatalf format values st
  | .withSpan span => log.WithSpan span st
  | .sync engineErr => (log.Sync engineErr st).1

/-- A logger value with no attached context fields, and a fresh state: the
concrete instances used below. -/
def lg0 : logger := ⟨⟨[]⟩⟩

theorem data_append (a b : String) : (a ++ b).data = a.data ++ b.data := by
  cases a
  cases b
  rfl

theorem logFileURI_ne_stderr (dir : String) : logFileURI dir ≠ "stderr" := by
  intro h
  have h1 : dir.data ++ ("/log.jsonl").data = ("stderr").data := by
    have h0 := congrArg String.data h
    simpa [logFileURI, data_append] using h0
  have h2 := congrArg List.length h1
  have h3 : ("/log.jsonl").data.length = 10 := by decide
  have h4 : ("stderr").data.length = 6 := by decide
  simp [List.length_append, h3, h4] at h2

theorem logFileURI_ne_pretty (dir : String) :
    logFileURI dir ≠ "pretty://console" := by
  intro h
  have h1 : dir.data ++ ("/log.jsonl").data = ("pretty://console").data := by
    have h0 := congrArg String.data h
    simpa [logFileURI, data_append] using h0
  have hsplit : ("pretty://console").data = ("pretty").data ++ ("://console").data := by
    decide
  rw [hsplit] at h1
  have h2 := (List.append_inj' h1 (by decide)).2
  exact absurd h2 (by decide)

theorem CounterBank.get_inc_le (c : CounterBank) (l l' : Level) :
    c.get l' ≤ (c.inc l).get l' := by
  cases l <;> cases l' <;> simp only [CounterBank.get, CounterBank.inc] <;> omega

/-- Every exported operation either leaves the counter bank unchanged or
bumps exactly one counter of a level other than DPanic. -/
theorem counters_shape (op : Op) (log : logger) (st : LogState) :
    ((Op.apply op log st).1).counters = st.counters
    ∨ ∃ lvl, lvl ≠ Level.dpanic
        ∧ ((Op.apply op log st).1).counters = st.counters.inc lvl := by
  cases op with
  | write b => exact Or.inl rfl
  | info msg => exact Or.inr ⟨.info, by decide, rfl⟩
  | infow msg kv => exact Or.inr ⟨.info, by decide, rfl⟩
  | infof format values => exact Or.inr ⟨.info, by decide, rfl⟩
  | debug msg => exact Or.inr ⟨.debug, by decide, rfl⟩
  | debugw msg kv => exact Or.inr ⟨.debug, by decide, rfl⟩
  | debugf format values => exact Or.inr ⟨.debug, by decide, rfl⟩
  | warn msg => exact Or.inr ⟨.warn, by decide, rfl⟩
  | warnw msg kv => exact Or.inr ⟨.warn, by decide, rfl⟩
  | warnf format values => exact Or.inr ⟨.warn, by decide, rfl⟩
  | warnIf err =>
    cases err with
    | none => exact Or.inl rfl
    | some e => exact Or.inr ⟨.warn, by decide, rfl⟩
  | error msg => exact Or.inr ⟨.error, by decide, rfl⟩
  | errorw msg kv => exact Or.inr ⟨.error, by decide, rfl⟩
  | errorf format values => exact Or.inr ⟨.error, by decide, rfl⟩
  | errorIf err optionalMsg =>
    cases err with
    | none => exact Or.inl rfl
    | some e =>
      cases optionalMsg with
      | nil => exact Or.inr ⟨.error, by decide, rfl⟩
      | cons m rest => exact Or.inr ⟨.error, by decide, rfl⟩
  | errorIfCalling name res optionalMsg =>
    cases res with
    | none => exact Or.inl rfl
    | some e =>
      cases optionalMsg with
      | nil => exact Or.inr ⟨.error, by decide, rfl⟩
      | cons m rest => exact Or.inr ⟨.error, by decide, rfl⟩
  | panic msg => exact Or.inl rfl
  | panicf format values => exact Or.inl rfl
  | panicIf err =>
    cases err with
    | none => exact Or.inl rfl
    | some e => exact Or.inl rfl
  | fatal msg => exact Or.inr ⟨.fatal, by decide, rfl⟩
  | fatalf format values => exact Or.inl rfl
  | withSpan span =>
    cases span with
    | none => exact Or.inl rfl
    | some s => exact Or.inl rfl
  | sync engineErr => exact Or.inl rfl

/-- C1: the spec claims each emission method bumps its level's counter by
exactly one regardless of whether the underlying write succeeds; on the code,
Panic, Panicf and Fatalf never increment any counter, because the engine call
panics (resp. exits the process) before the increment statement written after
it can run — the counter bank comes back unchanged. -/
theorem panic_family_counters_unchanged :
    ∀ (log : logger) (msg format : String) (values : List String) (st : LogState),
      (log.Panic msg st).1.counters = st.counters
      ∧ (log.Panic msg st).2 = Control.panicked
      ∧ (log.Panicf format values st).1.counters = st.counters
      ∧ (log.Panicf format values st).2 = Control.panicked
      ∧ (log.Fatalf format values st).1.counters = st.counters
      ∧ (log.Fatalf format values st).2 = Control.exited := by
  intro log msg format values st
  exact ⟨rfl, rfl, rfl, rfl, rfl, rfl⟩

/-- C2, counterexample to the claim as stated: from a fresh state, PanicIf on
a non-nil error leaves the panic counter at its old value (0), not old
value + 1 — the method body contains no counter increment. -/
theorem panicIf_no_increment_counterexample :
    ¬ ((lg0.PanicIf (some "boom") initialState).1.counters.panicLineCounter
        = initialState.counters.panicLineCounter + 1) := by
  decide

/-- C2 as amended: PanicIf(nil) is a no-op; PanicIf on a non-nil error emits
the error at Panic level and propagates a panic to the caller, but does not
increment the panic counter (no counter changes at all). -/
theorem panicIf_semantics :
    ∀ (log : logger) (e : String) (st : LogState),
      log.PanicIf none st = (st, Control.normal)
      ∧ log.PanicIf (some e) st
          = (⟨st.emitted ++ [⟨Level.panic, e, log.l.fields⟩], st.counters⟩,
             Control.panicked) := by
  intro log e st
  refine ⟨rfl, ?_⟩
  simp [logger.PanicIf, SugaredLogger.Panic, SugaredLogger.emit, levelControl]

/-- C3: WithSpan evaluates the engine's With and discards the derived logger
it returns; the method yields no logger value and changes nothing, so an
emission made after WithSpan with a non-nil span carries no TraceID field
(here: the record's field list is empty). -/
theorem withSpan_discards_derived_logger :
    (∀ (log : logger) (span : Option Span) (st : LogState),
        log.WithSpan span st = (st, Control.normal))
    ∧ ((lg0.Info "m"
          (lg0.WithSpan (some ⟨"4bf92f3577b34da6a3ce929d0e0e4736"⟩)
            initialState).1).1.emitted.map Record.fields = [[]]) := by
  refine ⟨?_, by decide⟩
  intro log span st
  cases span <;> rfl

/-- C4: WarnIf(nil) and ErrorIf(nil) change nothing; on a non-nil error,
WarnIf hands exactly one Warn record to the engine and bumps the warn counter
once, and ErrorIf hands exactly one Error record — the error wrapped with
optionalMsg[0] when a message is supplied — and bumps the error counter
once. -/
theorem warnIf_errorIf_semantics :
    ∀ (log : logger) (e m : String) (rest optionalMsg : List String)
      (st : LogState),
      log.WarnIf none st = (st, Control.normal)
      ∧ log.ErrorIf none optionalMsg st = (st, Control.normal)
      ∧ log.WarnIf (some e) st
          = (⟨st.emitted ++ [⟨Level.warn, e, log.l.fields⟩],
              st.counters.inc Level.warn⟩, Control.normal)
      ∧ log.ErrorIf (some e) [] st
          = (⟨st.emitted ++ [⟨Level.error, e, log.l.fields⟩],
              st.counters.inc Level.error⟩, Control.normal)
      ∧ log.ErrorIf (some e) (m :: rest) st
          = (⟨st.emitted ++ [⟨Level.error, errors.Wrap e m, log.l.fields⟩],
              st.counters.inc Level.error⟩, Control.normal) := by
  intro log e m rest optionalMsg st
  refine ⟨rfl, rfl, ?_, ?_, ?_⟩ <;>
    simp [logger.WarnIf, logger.ErrorIf, SugaredLogger.Warn, SugaredLogger.Error,
      SugaredLogger.emit, levelControl, seqC, incCounter]

/-- C5: ErrorIfCalling invokes f; when f returns a non-nil error the facade
hands exactly one Error record to the engine — the error wrapped with the
runtime-resolved name of f, then with optionalMsg[0] when supplied — and
bumps the error counter once, and the logged message contains the name of f
as a substring; when f returns nil, nothing is emitted and no counter
changes. -/
theorem errorIfCalling_logs_name :
    ∀ {σ : Type} (log : logger) (cs : σ) (name : String) (g : σ → σ)
      (e m : String) (rest optionalMsg : List String) (st : LogState),
      logger.ErrorIfCalling log cs name (fun c => (g c, some e)) [] st
        = ((⟨st.emitted ++ [⟨Level.error, errors.Wrap e name, log.l.fields⟩],
             st.counters.inc Level.error⟩, Control.normal), g cs)
      ∧ logger.ErrorIfCalling log cs name (fun c => (g c, some e)) (m :: rest) st
        = ((⟨st.emitted
              ++ [⟨Level.error, errors.Wrap (errors.Wrap e name) m, log.l.fields⟩],
             st.counters.inc Level.error⟩, Control.normal), g cs)
      ∧ (∃ pre post, (errors.Wrap e name).data = pre ++ name.data ++ post)
      ∧ (∃ pre post,
           (errors.Wrap (errors.Wrap e name) m).data = pre ++ name.data ++ post)
      ∧ logger.ErrorIfCalling log cs name (fun c => (g c, none)) optionalMsg st
        = ((st, Control.normal), g cs) := by
  intro σ log cs name g e m rest optionalMsg st
  refine ⟨?_, ?_, ?_, ?_, rfl⟩
  · simp [logger.ErrorIfCalling, SugaredLogger.Error, SugaredLogger.emit,
      levelControl, seqC, incCounter]
  · simp [logger.ErrorIfCalling, SugaredLogger.Error, SugaredLogger.emit,
      levelControl, seqC, incCounter]
  · exact ⟨[], (": " ++ e).data, by simp [errors.Wrap, data_append]⟩
  · exact ⟨(m ++ ": ").data, (": " ++ e).data, by
      simp [errors.Wrap, data_append]⟩

/-- C6: the configuration CreateProductionLogger builds has the pretty
console output path exactly when jsonConsole is false, carries the log-file
destination derived from dir in both path lists exactly when toDisk is true,
and has its active level set to lvl. -/
theorem createProductionLogger_config :
    ∀ (dir : String) (jsonConsole : Bool) (lvl : Level) (toDisk : Bool),
      (("pretty://console"
          ∈ (CreateProductionLogger dir jsonConsole lvl toDisk).OutputPaths)
        ↔ jsonConsole = false)
      ∧ ((logFileURI dir
            ∈ (CreateProductionLogger dir jsonConsole lvl toDisk).OutputPaths
          ∧ logFileURI dir
            ∈ (CreateProductionLogger dir jsonConsole lvl toDisk).ErrorOutputPaths)
        ↔ toDisk = true)
      ∧ (CreateProductionLogger dir jsonConsole lvl toDisk).level = lvl := by
  intro dir jsonConsole lvl toDisk
  have hs := logFileURI_ne_stderr dir
  have hp := logFileURI_ne_pretty dir
  cases jsonConsole <;> cases toDisk <;>
    simp [CreateProductionLogger, zap.NewProductionConfig, hs, hp,
      Ne.symm hs, Ne.symm hp]

/-- C7: under every exported facade operation, every per-level counter either
keeps its value or grows: the counter bank is monotonically non-decreasing,
never reset or decremented. -/
theorem counter_bank_monotone :
    ∀ (op : Op) (log : logger) (st : LogState) (lvl : Level),
      st.counters.get lvl ≤ ((Op.apply op log st).1).counters.get lvl := by
  intro op log st lvl
  rcases counters_shape op log st with h | ⟨l, _, h⟩
  · rw [h]
  · rw [h]
    exact CounterBank.get_inc_le st.counters l lvl

/-- C8: Write hands string(b) to the engine as one Info-level record, leaves
every per-level counter unchanged, and returns (len(b), nil) — the error is
always nil. -/
theorem write_returns_len_nil :
    ∀ (log : logger) (b : List Char) (st : LogState),
      (log.Write b st).2 = (b.length, none)
      ∧ (log.Write b st).1
          = (⟨st.emitted ++ [⟨Level.info, String.mk b, log.l.fields⟩],
              st.counters⟩, Control.normal)
      ∧ (log.Write b st).1.1.counters = st.counters := by
  intro log b st
  refine ⟨rfl, ?_, rfl⟩
  simp [logger.Write, SugaredLogger.Info, SugaredLogger.emit, levelControl]

/-- C9: ErrorIfCalling applies f exactly once, unconditionally: the caller
state it returns is the state after a single application of f, for every f —
in particular also when f returns nil and nothing is logged. -/
theorem errorIfCalling_invokes_f_once :
    ∀ {σ : Type} (log : logger) (cs : σ) (name : String)
      (f : σ → σ × GoError) (optionalMsg : List String) (st : LogState),
      (logger.ErrorIfCalling log cs name f optionalMsg st).2 = (f cs).1 := by
  intro σ log cs name f optionalMsg st
  unfold logger.ErrorIfCalling
  rcases h : f cs with ⟨cs', err⟩
  cases err <;> cases optionalMsg <;> simp [h]

/-- C10: the DPanic counter is pre-created at 0 alongside the other per-level
counters, and no exported facade operation ever changes it. -/
theorem dpanic_counter_constant :
    initialCounterBank.dPanicLineCounter = 0
    ∧ ∀ (op : Op) (log : logger) (st : LogState),
        ((Op.apply op log st).1).counters.dPanicLineCounter
          = st.counters.dPanicLineCounter := by
  refine ⟨rfl, ?_⟩
  intro op log st
  rcases counters_shape op log st with h | ⟨l, hl, h⟩
  · rw [h]
  · rw [h]
    cases l <;> first | rfl | exact absurd rfl hl

end SCLogger
